/-
Verification of the durable per-user record store of the finance tracker
(src/main.py): the atomic temp-file write primitive, the user registry with
its self-healing load, the balance ledger, the expense journal loader and
the keyword-based category suggestion.

Modelling conventions:
* File contents are modelled by inductive types per file kind; unparseable
  bytes are a dedicated `corrupt` constructor.
* Python `float` amounts are modelled as exact integers (`Int`); numeric
  rounding of IEEE floats is outside the scope of this embedding.
* The SHA-256 digest is abstracted as an injective tagging of the password.
* Logging and the Streamlit UI calls (`st.error`, ...) have no effect on the
  store state and are not modelled.
-/
import Mathlib

/-! ## Atomic file write (safe_json_write, main.py lines 82-96)

The write primitive is modelled as a small machine over the two files it
touches: the target path and its temporary sibling `path + ".tmp"`.  A file
either is absent, holds a partially written serialization, or holds a
complete serialized value.  A fail point says at which statement of the
Python function an exception is raised (if any); the run records every
intermediate filesystem state a concurrent reader could observe. -/

/-- Content of a file touched by the write primitive: either a partially
written serialization or a completely serialized value. -/
inductive WriteData (α : Type) where
  | halfWritten : WriteData α
  | complete (d : α) : WriteData α
deriving DecidableEq

/-- The two files `safe_json_write filepath` touches: the target path and the
temporary sibling `filepath + ".tmp"`.  `none` means the file is absent. -/
structure TwoFiles (α : Type) where
  target : Option (WriteData α)
  temp : Option (WriteData α)
deriving DecidableEq

/-- Where, if anywhere, an exception is raised inside `safe_json_write`:
while `json.dump` is serializing into the temp file, at `os.remove(filepath)`,
at `os.rename(temp_file, filepath)`, or nowhere. -/
inductive FailPoint where
  | duringDump
  | atRemove
  | atRename
  | noFail
deriving DecidableEq

/-- A run of the write primitive: the successive filesystem states a reader
could observe, the final state, and the returned success flag. -/
structure WriteRun (α : Type) where
  trace : List (TwoFiles α)
  final : TwoFiles α
  ok : Bool
deriving DecidableEq

/-- Embedding of `safe_json_write` (main.py lines 82-96).  `open(temp, 'w')`
creates/truncates the temp file; `json.dump` completes the serialization
unless the fail point interrupts it; then the code removes the target (when
it exists) and renames the temp file onto the target.  The `except` branch
(lines 91-96) removes the temp file when it exists and returns `False`. -/
def safe_json_write {α : Type} (fs : TwoFiles α) (data : α) (fp : FailPoint) :
    WriteRun α :=
  let s1 : TwoFiles α := { fs with temp := some .halfWritten }
  match fp with
  | .duringDump =>
      let sE : TwoFiles α := { s1 with temp := none }
      ⟨[fs, s1, sE], sE, false⟩
  | .atRemove =>
      let s2 : TwoFiles α := { s1 with temp := some (.complete data) }
      let sE : TwoFiles α := { s2 with temp := none }
      ⟨[fs, s1, s2, sE], sE, false⟩
  | .atRename =>
      let s2 : TwoFiles α := { s1 with temp := some (.complete data) }
      let s3 : TwoFiles α :=
        if fs.target.isSome then { s2 with target := none } else s2
      let sE : TwoFiles α := { s3 with temp := none }
      ⟨[fs, s1, s2, s3, sE], sE, false⟩
  | .noFail =>
      let s2 : TwoFiles α := { s1 with temp := some (.complete data) }
      let s3 : TwoFiles α :=
        if fs.target.isSome then { s2 with target := none } else s2
      let s4 : TwoFiles α := { target := some (.complete data), temp := none }
      ⟨[fs, s1, s2, s3, s4], s4, true⟩

/-! ## Category suggestion (categorize_expense, main.py lines 30-36) -/

/-- Does the first list start with the second list's elements?  Helper for the
substring test below. -/
def leadsWith : List Char → List Char → Bool
  | [], _ => true
  | _ :: _, [] => false
  | a :: as, b :: bs => a = b && leadsWith as bs

/-- Python's `sub in s` substring containment on character lists. -/
def occursIn (sub : List Char) : List Char → Bool
  | [] => leadsWith sub []
  | c :: rest => leadsWith sub (c :: rest) || occursIn sub rest

/-- Python `str.lower()`, modelled on the basic latin range via
`Char.toLower`. -/
def lowerStr (s : String) : String := String.mk (s.data.map Char.toLower)

/-- The two nested loops of `categorize_expense`: return the first category,
in mapping order, one of whose keywords (lowercased) occurs in the already
lowercased description; `"Other"` when the loops fall through. -/
def categorize_from (d : String) : List (String × List String) → String
  | [] => "Other"
  | (category, keywords) :: rest =>
      if keywords.any (fun kw => occursIn (lowerStr kw).data d.data) then category
      else categorize_from d rest

/-- Embedding of `categorize_expense` (main.py lines 30-36): lowercase the
description, then scan the rules mapping in insertion order. -/
def categorize_expense (description : String)
    (categories : List (String × List String)) : String :=
  categorize_from (lowerStr description) categories

/-! ## The on-disk store

The store is split into the registry file `data/users.json` and the per-user
files under `data/users/`; the code never mixes the two namespaces.  User
files are an association list keyed by file name; the registry holds either a
serialized username-to-record mapping or unparseable bytes.  This part of the
model is failure-free: every write that `safe_json_write` performs succeeds
(fail points are only exercised for the atomic-write claims). -/

/-- A cell of the tabular expense file. -/
inductive Cell where
  | str (s : String)
  | num (n : Int)
  | date (y m d : Nat)
  | null
deriving DecidableEq

/-- A pandas data frame, column-major: column name paired with the column's
cell values, in column order; all columns of a well-formed frame have the
same length. -/
structure DataFrame where
  cols : List (String × List Cell)
deriving DecidableEq

/-- Content of one per-user file: the balance JSON object (whose `"balance"`
key may be absent), the tabular expense file, the categories mapping, or
unparseable bytes. -/
inductive FileContent where
  | balanceObj (b : Option Int)
  | csv (df : DataFrame)
  | cats (rules : List (String × List String))
  | corrupt
deriving DecidableEq

/-- One record of the registry.  The three file names are stored under the
keys `data_file`, `categories_file` and `balance_file`; only `balance_file`
may be absent in a drifted record (it is the only key the self-heal step of
`load_users` looks for). -/
structure UserData where
  password_hash : String
  data_file : String
  categories_file : String
  balance_file : Option String
deriving DecidableEq

/-- Content of the registry file `data/users.json`. -/
inductive RegContent where
  | ok (users : List (String × UserData))
  | corrupt
deriving DecidableEq

/-- The store: the registry file (absent until created) and the per-user
files keyed by file name. -/
structure Store where
  regFile : Option RegContent
  userFiles : List (String × FileContent)
deriving DecidableEq

/-- First-match lookup in an association list (Python dict access). -/
def alookup {β : Type} : List (String × β) → String → Option β
  | [], _ => none
  | (k, v) :: rest, key => if k = key then some v else alookup rest key

/-- Python dict assignment `d[key] = v`: replace in place when the key is
present, append otherwise. -/
def aset {β : Type} : List (String × β) → String → β → List (String × β)
  | [], key, v => [(key, v)]
  | (k, v0) :: rest, key, v =>
      if k = key then (k, v) :: rest else (k, v0) :: aset rest key v

/-- Embedding of `safe_json_read` (main.py lines 71-80) on the per-user
files: the parsed content when the file exists and parses, the supplied
default when it is absent (`FileNotFoundError`) or unparseable
(`json.JSONDecodeError`); the function returns in every case. -/
def safe_json_read (files : List (String × FileContent)) (filepath : String)
    (default : Option FileContent) : Option FileContent :=
  match alookup files filepath with
  | none => default
  | some .corrupt => default
  | some c => some c

/-- Embedding of `ensure_directory_exists` (main.py lines 58-69): create the
registry file holding the empty mapping when it does not exist. -/
def ensure_directory_exists (st : Store) : Store :=
  match st.regFile with
  | none => { st with regFile := some (.ok []) }
  | some _ => st

/-- The `safe_json_read(os.path.join('data', USERS_FILE), {})` call of
`load_users`: the parsed mapping, or the empty default when the registry file
is absent or unparseable. -/
def read_registry (st : Store) : List (String × UserData) :=
  match st.regFile with
  | some (.ok m) => m
  | some .corrupt => []
  | none => []

/-- Balance file name synthesized from the username (main.py lines 106, 122). -/
def balanceName (username : String) : String :=
  "user_" ++ username ++ "_balance.json"

/-- Expense data file name derived from the username (main.py line 120). -/
def dataName (username : String) : String :=
  "user_" ++ username ++ "_data.csv"

/-- Categories file name derived from the username (main.py line 121). -/
def categoriesName (username : String) : String :=
  "user_" ++ username ++ "_categories.json"

/-- The self-heal loop of `load_users` (main.py lines 104-109): every record
missing the `balance_file` key gets the synthesized name, and the backing
file is created with balance `0.0` when it does not exist on disk. -/
def migrate_users : List (String × FileContent) → List (String × UserData) →
    List (String × FileContent) × List (String × UserData)
  | files, [] => (files, [])
  | files, (u, d) :: rest =>
    match d.balance_file with
    | some _ =>
        let r := migrate_users files rest
        (r.1, (u, d) :: r.2)
    | none =>
        let d' := { d with balance_file := some (balanceName u) }
        let files1 :=
          if (alookup files (balanceName u)).isSome then files
          else aset files (balanceName u) (.balanceObj (some 0))
        let r := migrate_users files1 rest
        (r.1, (u, d') :: r.2)

/-- Embedding of `load_users` (main.py lines 99-112): ensure the directory
layout, read the registry with an empty default, run the self-heal loop, and
rewrite the registry file with the healed mapping. -/
def load_users (st : Store) : Store × List (String × UserData) :=
  let st0 := ensure_directory_exists st
  let r := migrate_users st0.userFiles (read_registry st0)
  ({ regFile := some (.ok r.2), userFiles := r.1 }, r.2)

/-- The SHA-256 hex digest of `hash_password` (main.py lines 24-25),
abstracted as an injective tagging of the password. -/
def hash_password (password : String) : String := "sha256:" ++ password

/-- The default category rules seeded at account creation (main.py
lines 135-140). -/
def default_categories : List (String × List String) :=
  [("Food", ["grocery", "restaurant", "lunch"]),
   ("Transport", ["uber", "taxi", "gas"]),
   ("Entertainment", ["movie", "game", "concert"]),
   ("Bills", ["electric", "water", "internet"])]

/-- The empty four-column expense frame
`pd.DataFrame(columns=['Date','Description','Category','Amount'])`. -/
def emptyFrame : DataFrame :=
  ⟨[("Date", []), ("Description", []), ("Category", []), ("Amount", [])]⟩

/-- Embedding of `save_user` (main.py lines 114-154): build the record with
the hashed password and the three derived file names, create the empty data
file, the default categories file and the zero balance file, then add the
record to the mapping and rewrite the registry. -/
def save_user (st : Store) (username password : String) : Store × Bool :=
  let st0 := ensure_directory_exists st
  let (st1, users) := load_users st0
  let d : UserData :=
    { password_hash := hash_password password
      data_file := dataName username
      categories_file := categoriesName username
      balance_file := some (balanceName username) }
  let files := aset st1.userFiles (dataName username) (.csv emptyFrame)
  let files := aset files (categoriesName username) (.cats default_categories)
  let files := aset files (balanceName username) (.balanceObj (some 0))
  let users' := aset users username d
  ({ regFile := some (.ok users'), userFiles := files }, true)

/-- Embedding of the sign-up flow of `main` (main.py lines 648-659): reject
an empty username or password, mismatched confirmation, or a username already
present in the registry loaded by `load_users`; otherwise call `save_user`. -/
def create_account (st : Store) (new_user new_pass confirm_pass : String) :
    Store × Bool :=
  if new_user = "" || new_pass = "" then (st, false)
  else if new_pass ≠ confirm_pass then (st, false)
  else
    let (st1, users) := load_users st
    if (alookup users new_user).isSome then (st1, false)
    else save_user st1 new_user new_pass

/-- The read of the balance file inside `get_user_balance` (main.py
lines 165-172): `float(json.load(f).get("balance", 0.0))` under a `try` that
returns `0.0` on a missing file, unparseable bytes, a JSON value of the wrong
shape, or an absent `"balance"` key. -/
def readBalanceFile : Option FileContent → Int
  | some (.balanceObj (some b)) => b
  | some (.balanceObj none) => 0
  | some _ => 0
  | none => 0

/-- Embedding of `get_user_balance` (main.py lines 157-172): load the
registry, return `0.0` for an unregistered username, otherwise read the
referenced balance file leniently.  After `load_users` every record carries a
`balance_file` reference, so the `none` branch is unreachable. -/
def get_user_balance (st : Store) (username : String) : Store × Int :=
  let (st1, users) := load_users st
  match alookup users username with
  | none => (st1, 0)
  | some d =>
    match d.balance_file with
    | none => (st1, 0)
    | some bf => (st1, readBalanceFile (alookup st1.userFiles bf))

/-- Embedding of `update_user_balance` (main.py lines 174-200): load the
registry, report failure for an unregistered username, otherwise read the
current balance via `get_user_balance`, add the (possibly negative) amount
and persist the sum to the referenced balance file via the temp-file write.
As in `get_user_balance`, the `none` reference branch is unreachable. -/
def update_user_balance (st : Store) (username : String) (amount : Int) :
    Store × Bool :=
  let (st1, users) := load_users st
  match alookup users username with
  | none => (st1, false)
  | some d =>
    match d.balance_file with
    | none => (st1, false)
    | some bf =>
      let (st2, current_balance) := get_user_balance st1 username
      let new_balance := current_balance + amount
      (⟨st2.regFile, aset st2.userFiles bf (.balanceObj (some new_balance))⟩, true)

/-! ## Expense journal loading (load_user_data, main.py lines 203-225) -/

/-- Value of a decimal digit character, if it is one. -/
def digitVal (c : Char) : Option Nat :=
  if 48 ≤ c.toNat ∧ c.toNat ≤ 57 then some (c.toNat - 48) else none

/-- Accumulate a digit string into a number, failing on a non-digit. -/
def digitsToNatAux : List Char → Nat → Option Nat
  | [], acc => some acc
  | c :: cs, acc =>
    match digitVal c with
    | some d => digitsToNatAux cs (acc * 10 + d)
    | none => none

/-- Parse a non-empty all-digit string into a number. -/
def digitsToNat : List Char → Option Nat
  | [] => none
  | c :: cs => digitsToNatAux (c :: cs) 0

/-- Split a character list at every dash. -/
def splitDash : List Char → List (List Char)
  | [] => [[]]
  | c :: cs =>
    if c = '-' then [] :: splitDash cs
    else
      match splitDash cs with
      | [] => [[c]]
      | g :: gs => (c :: g) :: gs

/-- Calendar-date parsing of `pd.to_datetime`, modelled on the ISO form
`YYYY-MM-DD` (the form this program itself writes): three dash-separated
digit groups with a plausible month and day; anything else fails to parse. -/
def parseDate (s : String) : Option (Nat × Nat × Nat) :=
  match splitDash s.data with
  | [ys, ms, ds] =>
    match digitsToNat ys, digitsToNat ms, digitsToNat ds with
    | some y, some m, some d =>
        if 1 ≤ m ∧ m ≤ 12 ∧ 1 ≤ d ∧ d ≤ 31 then some (y, m, d) else none
    | _, _, _ => none
  | _ => none

/-- Parsing one cell of the Date column through
`pd.to_datetime(df['Date']).dt.date`: a missing value stays missing (`NaT`),
an already parsed date is kept, a string must parse as a calendar date, and a
number is modelled as a parse failure. -/
def parseDateCell : Cell → Option Cell
  | .str s => (parseDate s).map (fun p => .date p.1 p.2.1 p.2.2)
  | .null => some .null
  | .date y m d => some (.date y m d)
  | .num _ => none

/-- Apply a fallible function to every element; fail when any element fails. -/
def mapOption {α β : Type} (f : α → Option β) : List α → Option (List β)
  | [] => some []
  | a :: as =>
    match f a, mapOption f as with
    | some b, some bs => some (b :: bs)
    | _, _ => none

/-- The required journal schema (main.py line 214). -/
def required_columns : List String := ["Date", "Description", "Category", "Amount"]

/-- The fill value of the normalization loop (main.py line 217):
`None if col != 'Amount' else 0.0`. -/
def defaultCell (col : String) : Cell :=
  if col = "Amount" then .num 0 else .null

/-- Number of rows of a frame (the length of its first column). -/
def nRows (df : DataFrame) : Nat :=
  match df.cols with
  | [] => 0
  | c :: _ => c.2.length

/-- The normalization loop of `load_user_data` (main.py lines 214-217): each
required column that is absent is appended, filled with the default value on
every row. -/
def add_missing_columns (df : DataFrame) : DataFrame :=
  required_columns.foldl
    (fun acc col =>
      if (alookup acc.cols col).isSome then acc
      else ⟨acc.cols ++ [(col, List.replicate (nRows acc) (defaultCell col))]⟩)
    df

/-- The date conversion of `load_user_data` (main.py lines 219-220): replace
the Date column by its parsed cells; a cell that fails to parse raises, which
the surrounding `try` turns into the empty frame. -/
def set_date_column (df : DataFrame) : Option DataFrame :=
  match alookup df.cols "Date" with
  | none => some df
  | some vs =>
    match mapOption parseDateCell vs with
    | some vs' => some ⟨aset df.cols "Date" vs'⟩
    | none => none

/-- Embedding of `load_user_data` (main.py lines 203-225): load the registry,
return the empty four-column frame for an unregistered username; read the
expense file, normalize missing columns, parse the Date column; any read or
parse failure degrades to the empty four-column frame. -/
def load_user_data (st : Store) (username : String) : Store × DataFrame :=
  let (st1, users) := load_users st
  match alookup users username with
  | none => (st1, emptyFrame)
  | some d =>
    match alookup st1.userFiles d.data_file with
    | some (.csv df) =>
        match set_date_column (add_missing_columns df) with
        | some df' => (st1, df')
        | none => (st1, emptyFrame)
    | _ => (st1, emptyFrame)

/-! ## Well-formedness of the store and basic lemmas -/

/-- A registry mapping is migrated when every record carries a balance-file
reference (the shape `load_users` establishes). -/
def Migrated (m : List (String × UserData)) : Prop :=
  ∀ p ∈ m, p.2.balance_file.isSome = true

/-- A store is well formed for the mapping `m` when its registry file parses
to `m` and `m` is migrated. -/
def WF (st : Store) (m : List (String × UserData)) : Prop :=
  st.regFile = some (.ok m) ∧ Migrated m

attribute [reducible] Migrated WF

/-- A concrete registry record used by the concrete stores below. -/
def aliceRecord : UserData :=
  { password_hash := "sha256:pw1"
    data_file := "user_alice_data.csv"
    categories_file := "user_alice_categories.json"
    balance_file := some "user_alice_balance.json" }

/-- A concrete well-formed store whose single account's balance file holds
the given content. -/
def aliceStore (c : FileContent) : Store :=
  ⟨some (.ok [("alice", aliceRecord)]), [("user_alice_balance.json", c)]⟩

/-- One step of the normalization loop: append the column with its default
fill when it is absent. -/
def addCol (df : DataFrame) (col : String) : DataFrame :=
  if (alookup df.cols col).isSome then df
  else ⟨df.cols ++ [(col, List.replicate (nRows df) (defaultCell col))]⟩

/-- Does the Date column of the raw frame parse?  (Vacuously true when the
column is absent: the appended all-null column always parses.) -/
def dateOK (df : DataFrame) : Bool :=
  match alookup df.cols "Date" with
  | none => true
  | some vs => (mapOption parseDateCell vs).isSome

/-- A concrete raw journal frame: Date and Description present (two rows),
Category and Amount columns absent. -/
def c8frame : DataFrame :=
  ⟨[("Date", [Cell.str "2024-01-05", Cell.str "2024-01-06"]),
    ("Description", [Cell.str "uber ride", Cell.str "coffee"])]⟩

/-- A concrete well-formed store whose single account's journal file holds
`c8frame`. -/
def c8store : Store :=
  ⟨some (.ok [("alice", aliceRecord)]), [("user_alice_data.csv", .csv c8frame)]⟩

theorem leadsWith_nil (sub : List Char) : leadsWith sub [] = sub.isEmpty := by
  cases sub <;> rfl

theorem toNat_ofNat_of_le (n : Nat) (h2 : n ≤ 122) : (Char.ofNat n).toNat = n := by
  have hv : n.isValidChar := Or.inl (by omega)
  simp [Char.ofNat, hv, Char.ofNatAux, Char.toNat, UInt32.toNat, BitVec.ofNatLt]

theorem char_toLower_idem (c : Char) : c.toLower.toLower = c.toLower := by
  unfold Char.toLower
  by_cases h : 65 ≤ c.toNat ∧ c.toNat ≤ 90
  · rw [if_pos h]
    have ht : (Char.ofNat (c.toNat + 32)).toNat = c.toNat + 32 :=
      toNat_ofNat_of_le _ (by omega)
    rw [if_neg (by omega)]
  · rw [if_neg h, if_neg h]

theorem lowerStr_idem (s : String) : lowerStr (lowerStr s) = lowerStr s := by
  unfold lowerStr
  apply congrArg String.mk
  show (s.data.map Char.toLower).map Char.toLower = s.data.map Char.toLower
  rw [List.map_map]
  exact List.map_congr_left (fun c _ => char_toLower_idem c)

theorem alookup_aset_self {β : Type} (l : List (String × β)) (k : String) (v : β) :
    alookup (aset l k v) k = some v := by
  induction l with
  | nil => simp [aset, alookup]
  | cons p rest ih =>
      obtain ⟨k0, v0⟩ := p
      by_cases h : k0 = k
      · simp [aset, alookup, h]
      · simp [aset, alookup, h, ih]

theorem alookup_aset_ne {β : Type} (l : List (String × β)) (k x : String) (v : β)
    (h : k ≠ x) : alookup (aset l k v) x = alookup l x := by
  induction l with
  | nil => simp [aset, alookup, h]
  | cons p rest ih =>
      obtain ⟨k0, v0⟩ := p
      by_cases h0 : k0 = k
      · subst h0; simp [aset, alookup, h]
      · simp [aset, alookup, h0, ih]

theorem alookup_append_some {β : Type} (l l' : List (String × β)) (x : String)
    (v : β) (h : alookup l x = some v) : alookup (l ++ l') x = some v := by
  induction l with
  | nil => simp [alookup] at h
  | cons p rest ih =>
      obtain ⟨k0, v0⟩ := p
      by_cases h0 : k0 = x
      · simp [alookup, h0] at h ⊢; exact h
      · simp [alookup, h0] at h ⊢; exact ih h

theorem alookup_append_none {β : Type} (l l' : List (String × β)) (x : String)
    (h : alookup l x = none) : alookup (l ++ l') x = alookup l' x := by
  induction l with
  | nil => simp [alookup]
  | cons p rest ih =>
      obtain ⟨k0, v0⟩ := p
      by_cases h0 : k0 = x
      · simp [alookup, h0] at h
      · simp [alookup, h0] at h ⊢; exact ih h

theorem mem_aset {β : Type} (l : List (String × β)) (k : String) (v : β)
    (p : String × β) (h : p ∈ aset l k v) : p ∈ l ∨ p = (k, v) := by
  induction l with
  | nil => simp [aset] at h; simp [h]
  | cons q rest ih =>
      obtain ⟨k0, v0⟩ := q
      by_cases h0 : k0 = k
      · subst h0
        simp [aset] at h
        rcases h with h | h
        · exact Or.inr (by simp [h])
        · exact Or.inl (List.mem_cons_of_mem _ h)
      · simp [aset, h0] at h
        rcases h with h | h
        · exact Or.inl (by simp [h])
        · rcases ih h with h' | h'
          · exact Or.inl (List.mem_cons_of_mem _ h')
          · exact Or.inr h'

theorem migrate_users_id (files : List (String × FileContent))
    (m : List (String × UserData)) (h : Migrated m) :
    migrate_users files m = (files, m) := by
  induction m generalizing files with
  | nil => rfl
  | cons p rest ih =>
      obtain ⟨u, d⟩ := p
      have hd : d.balance_file.isSome = true := h _ (List.mem_cons_self _ _)
      have hrest : Migrated rest := fun q hq => h q (List.mem_cons_of_mem _ hq)
      match hbf : d.balance_file with
      | none => rw [hbf] at hd; simp at hd
      | some bf => simp [migrate_users, hbf, ih files hrest]

theorem load_users_id (st : Store) (m : List (String × UserData)) (h : WF st m) :
    load_users st = (st, m) := by
  obtain ⟨hreg, hmig⟩ := h
  cases st with
  | mk rf uf =>
      simp only [Store.mk.injEq] at hreg ⊢
      simp [load_users, ensure_directory_exists, read_registry, hreg,
        migrate_users_id uf m hmig]

/-! ## Claim theorems for the read and balance operations -/

/-- C3: for every path and every default value, `safe_json_read` returns the
deserialized file content when the file exists and parses, and returns the
supplied default when the file does not exist or its content fails to parse;
being a total function, it never raises past its boundary. -/
theorem safe_json_read_lenient (files : List (String × FileContent))
    (filepath : String) (default : Option FileContent) :
    (∀ c, alookup files filepath = some c → c ≠ .corrupt →
        safe_json_read files filepath default = some c)
    ∧ (alookup files filepath = none →
        safe_json_read files filepath default = default)
    ∧ (alookup files filepath = some .corrupt →
        safe_json_read files filepath default = default) := by
  refine ⟨?_, ?_, ?_⟩
  · intro c hc hne
    cases c <;> simp [safe_json_read, hc]
    exact absurd rfl hne
  · intro h; simp [safe_json_read, h]
  · intro h; simp [safe_json_read, h]

theorem safe_json_read_lenient_witness :
    safe_json_read [("b.json", FileContent.balanceObj (some 7))] "b.json" none
      = some (.balanceObj (some 7))
    ∧ safe_json_read [("b.json", FileContent.corrupt)] "b.json"
        (some (.balanceObj none)) = some (.balanceObj none)
    ∧ safe_json_read [] "b.json" (some .corrupt) = some .corrupt :=
  ⟨(safe_json_read_lenient [("b.json", .balanceObj (some 7))] "b.json" none).1
      _ (by decide) (by decide),
   (safe_json_read_lenient [("b.json", .corrupt)] "b.json"
      (some (.balanceObj none))).2.2 (by decide),
   (safe_json_read_lenient [] "b.json" (some .corrupt)).2.1 (by decide)⟩

/-- C7: for every username, `get_user_balance` returns the persisted scalar
when the account exists and its balance file holds a parseable balance, and
returns 0 when the account is absent from the registry, the balance file is
missing, its bytes are unparseable, or the `"balance"` key is absent; the
function is total, so no exception propagates. -/
theorem get_user_balance_lenient (st : Store) (m : List (String × UserData))
    (u : String) (hwf : WF st m) :
    (alookup m u = none → (get_user_balance st u).2 = 0)
    ∧ ∀ d bf, alookup m u = some d → d.balance_file = some bf →
        ((alookup st.userFiles bf = none → (get_user_balance st u).2 = 0)
        ∧ (alookup st.userFiles bf = some .corrupt →
            (get_user_balance st u).2 = 0)
        ∧ (alookup st.userFiles bf = some (.balanceObj none) →
            (get_user_balance st u).2 = 0)
        ∧ ∀ b, alookup st.userFiles bf = some (.balanceObj (some b)) →
            (get_user_balance st u).2 = b) := by
  have hl := load_users_id st m hwf
  constructor
  · intro h; simp [get_user_balance, hl, h]
  · intro d bf hd hbf
    refine ⟨?_, ?_, ?_, ?_⟩ <;>
      first
        | (intro h; simp [get_user_balance, hl, hd, hbf, readBalanceFile, h])
        | (intro b h; simp [get_user_balance, hl, hd, hbf, readBalanceFile, h])

theorem get_user_balance_lenient_witness :
    (get_user_balance (aliceStore .corrupt) "alice").2 = 0
    ∧ (get_user_balance (aliceStore (.balanceObj (some 460))) "alice").2 = 460 :=
  ⟨((get_user_balance_lenient (aliceStore .corrupt) [("alice", aliceRecord)]
      "alice" (by decide)).2 aliceRecord "user_alice_balance.json"
      (by decide) (by decide)).2.1 (by decide),
   ((get_user_balance_lenient (aliceStore (.balanceObj (some 460)))
      [("alice", aliceRecord)] "alice" (by decide)).2 aliceRecord
      "user_alice_balance.json" (by decide) (by decide)).2.2.2 460 (by decide)⟩

theorem update_user_balance_store (st : Store) (m : List (String × UserData))
    (u : String) (d : UserData) (bf : String) (b δ : Int) (hwf : WF st m)
    (hu : alookup m u = some d) (hbf : d.balance_file = some bf)
    (hb : alookup st.userFiles bf = some (.balanceObj (some b))) :
    update_user_balance st u δ
      = (⟨st.regFile, aset st.userFiles bf (.balanceObj (some (b + δ)))⟩, true) := by
  have hl := load_users_id st m hwf
  simp [update_user_balance, hl, hu, hbf, get_user_balance, readBalanceFile, hb]

/-- C4: for every registered username whose balance file holds a parseable
balance `b` and every delta (positive or negative), `update_user_balance`
persists `b + δ` and reports success, so that a subsequent
`get_user_balance` returns the old balance plus the delta; for an
unregistered username it reports failure and leaves the store unchanged. -/
theorem apply_delta_adds (st : Store) (m : List (String × UserData))
    (u : String) (d : UserData) (bf : String) (b δ : Int) (hwf : WF st m)
    (hu : alookup m u = some d) (hbf : d.balance_file = some bf)
    (hb : alookup st.userFiles bf = some (.balanceObj (some b))) :
    (update_user_balance st u δ).2 = true
    ∧ (get_user_balance (update_user_balance st u δ).1 u).2 = b + δ
    ∧ ∀ v, alookup m v = none → update_user_balance st v δ = (st, false) := by
  have hupd := update_user_balance_store st m u d bf b δ hwf hu hbf hb
  have hl := load_users_id st m hwf
  refine ⟨by rw [hupd], ?_, ?_⟩
  · rw [hupd]
    have hwf' : WF ⟨st.regFile, aset st.userFiles bf (.balanceObj (some (b + δ)))⟩ m :=
      ⟨hwf.1, hwf.2⟩
    have hl' := load_users_id _ m hwf'
    simp [get_user_balance, hl', hu, hbf, readBalanceFile, alookup_aset_self]
  · intro v hv
    simp [update_user_balance, hl, hv]

theorem apply_delta_adds_witness :
    (update_user_balance (aliceStore (.balanceObj (some 0))) "alice" 500).2 = true
    ∧ (get_user_balance
        (update_user_balance (aliceStore (.balanceObj (some 0))) "alice" 500).1
        "alice").2 = 0 + 500 :=
  ⟨(apply_delta_adds (aliceStore (.balanceObj (some 0))) [("alice", aliceRecord)]
      "alice" aliceRecord "user_alice_balance.json" 0 500
      (by decide) (by decide) (by decide) (by decide)).1,
   (apply_delta_adds (aliceStore (.balanceObj (some 0))) [("alice", aliceRecord)]
      "alice" aliceRecord "user_alice_balance.json" 0 500
      (by decide) (by decide) (by decide) (by decide)).2.1⟩

/-- C10: no operation of the store enforces the non-negative balance
convention: for a registered username with current balance `b` and any delta
`δ` with `b + δ < 0`, `update_user_balance` still reports success, persists
the negative sum `b + δ` in the balance file, and a subsequent
`get_user_balance` returns that negative balance. -/
theorem negative_balance_reachable (st : Store) (m : List (String × UserData))
    (u : String) (d : UserData) (bf : String) (b δ : Int) (hwf : WF st m)
    (hu : alookup m u = some d) (hbf : d.balance_file = some bf)
    (hb : alookup st.userFiles bf = some (.balanceObj (some b)))
    (hneg : b + δ < 0) :
    (update_user_balance st u δ).2 = true
    ∧ alookup (update_user_balance st u δ).1.userFiles bf
        = some (.balanceObj (some (b + δ)))
    ∧ (get_user_balance (update_user_balance st u δ).1 u).2 < 0 := by
  have hupd := update_user_balance_store st m u d bf b δ hwf hu hbf hb
  refine ⟨by rw [hupd], by rw [hupd]; exact alookup_aset_self _ _ _, ?_⟩
  rw [hupd]
  have hwf' : WF ⟨st.regFile, aset st.userFiles bf (.balanceObj (some (b + δ)))⟩ m :=
    ⟨hwf.1, hwf.2⟩
  have hl' := load_users_id _ m hwf'
  simpa [get_user_balance, hl', hu, hbf, readBalanceFile, alookup_aset_self]
    using hneg

theorem negative_balance_reachable_witness :
    (update_user_balance (aliceStore (.balanceObj (some 100))) "alice" (-350)).2 = true
    ∧ alookup (update_user_balance (aliceStore (.balanceObj (some 100)))
        "alice" (-350)).1.userFiles "user_alice_balance.json"
        = some (.balanceObj (some (100 + -350)))
    ∧ (get_user_balance (update_user_balance (aliceStore (.balanceObj (some 100)))
        "alice" (-350)).1 "alice").2 < 0 :=
  negative_balance_reachable (aliceStore (.balanceObj (some 100)))
    [("alice", aliceRecord)] "alice" aliceRecord "user_alice_balance.json"
    100 (-350) (by decide) (by decide) (by decide) (by decide) (by decide)

/-- C5: creating an account through the sign-up flow with a username already
present in the registry (compared by exact, case-sensitive string equality)
fails, and the registry — in particular the existing account's stored
password hash — is unchanged by the failed attempt. -/
theorem create_existing_fails (st : Store) (m : List (String × UserData))
    (u password confirm : String) (d : UserData) (hwf : WF st m)
    (hu : alookup m u = some d) :
    create_account st u password confirm = (st, false)
    ∧ alookup (read_registry (create_account st u password confirm).1) u = some d := by
  have hl := load_users_id st m hwf
  have h1 : create_account st u password confirm = (st, false) := by
    unfold create_account
    by_cases h0 : u = "" || password = ""
    · simp [h0]
    · by_cases hc : password = confirm
      · simp [h0, hc, hl, hu]
      · simp [h0, hc]
  refine ⟨h1, ?_⟩
  rw [h1]
  simp [read_registry, hwf.1, hu]

theorem create_existing_fails_witness :
    create_account (aliceStore (.balanceObj (some 0))) "alice" "y" "y"
      = (aliceStore (.balanceObj (some 0)), false)
    ∧ alookup (read_registry (create_account (aliceStore (.balanceObj (some 0)))
        "alice" "y" "y").1) "alice" = some aliceRecord :=
  create_existing_fails (aliceStore (.balanceObj (some 0)))
    [("alice", aliceRecord)] "alice" "y" "y" aliceRecord (by decide) (by decide)

/-! ## Claim theorems for category suggestion -/

theorem categorize_from_all_miss (d : String)
    (categories : List (String × List String))
    (h : ∀ p ∈ categories, ∀ kw ∈ p.2, occursIn (lowerStr kw).data d.data = false) :
    categorize_from d categories = "Other" := by
  induction categories with
  | nil => rfl
  | cons p rest ih =>
      obtain ⟨cat, kws⟩ := p
      have hnone : kws.any (fun kw => occursIn (lowerStr kw).data d.data) = false := by
        simp only [List.any_eq_false]
        intro kw hkw
        simp [h (cat, kws) (List.mem_cons_self _ _) kw hkw]
      simp only [categorize_from, hnone, Bool.false_eq_true, if_false]
      exact ih (fun q hq => h q (List.mem_cons_of_mem _ hq))

/-- C6: for every description and every rules mapping,
`categorize_expense` lowercases the description and returns the first
category, in the mapping's insertion order, having some keyword whose
lowercased form occurs as a substring of the lowercased description; when no
keyword of any category matches it returns the sentinel `"Other"` (first
match by mapping order wins, regardless of later or longer keyword matches). -/
theorem categorize_first_match (description : String) :
    (∀ categories : List (String × List String),
        (∀ p ∈ categories, ∀ kw ∈ p.2,
            occursIn (lowerStr kw).data (lowerStr description).data = false) →
        categorize_expense description categories = "Other")
    ∧ ∀ (pre post : List (String × List String)) (category : String)
        (keywords : List String),
        (∀ p ∈ pre, ∀ kw ∈ p.2,
            occursIn (lowerStr kw).data (lowerStr description).data = false) →
        (∃ kw ∈ keywords,
            occursIn (lowerStr kw).data (lowerStr description).data = true) →
        categorize_expense description (pre ++ (category, keywords) :: post)
          = category := by
  constructor
  · intro categories h
    exact categorize_from_all_miss _ categories h
  · intro pre post category keywords hpre hhit
    unfold categorize_expense
    induction pre with
    | nil =>
        have hh : keywords.any
            (fun kw => occursIn (lowerStr kw).data (lowerStr description).data)
            = true := by
          simp only [List.any_eq_true]
          obtain ⟨kw, hkw, hm⟩ := hhit
          exact ⟨kw, hkw, hm⟩
        simp [categorize_from, hh]
    | cons p rest ih =>
        obtain ⟨cat, kws⟩ := p
        have hnone : kws.any
            (fun kw => occursIn (lowerStr kw).data (lowerStr description).data)
            = false := by
          simp only [List.any_eq_false]
          intro kw hkw
          simp [hpre (cat, kws) (List.mem_cons_self _ _) kw hkw]
        simp only [List.cons_append, categorize_from, hnone, Bool.false_eq_true,
          if_false]
        exact ih (fun q hq => hpre q (List.mem_cons_of_mem _ hq))

theorem categorize_first_match_witness :
    categorize_expense "Uber ride" [("Food", ["grocery"])] = "Other"
    ∧ categorize_expense "Uber ride"
        [("Food", ["grocery"]), ("Transport", ["uber", "taxi"]),
         ("Extra", ["ride"])] = "Transport" :=
  ⟨(categorize_first_match "Uber ride").1 [("Food", ["grocery"])] (by decide),
   (categorize_first_match "Uber ride").2 [("Food", ["grocery"])]
     [("Extra", ["ride"])] "Transport" ["uber", "taxi"] (by decide) (by decide)⟩

theorem any_lower_map (d : String) (kws : List String) :
    (kws.map lowerStr).any (fun kw => occursIn (lowerStr kw).data d.data)
      = kws.any (fun kw => occursIn (lowerStr kw).data d.data) := by
  induction kws with
  | nil => rfl
  | cons k rest ih => simp only [List.map_cons, List.any_cons, ih, lowerStr_idem]

/-- C9: category suggestion is invariant under the letter case of the stored
keywords: for every description and every rules mapping, `categorize_expense`
on the mapping equals `categorize_expense` on the same mapping with every
keyword lowercased, because each keyword is lowercased before the substring
test. -/
theorem categorize_keyword_case (description : String)
    (categories : List (String × List String)) :
    categorize_expense description categories
      = categorize_expense description
          (categories.map (fun p => (p.1, p.2.map lowerStr))) := by
  unfold categorize_expense
  induction categories with
  | nil => rfl
  | cons p rest ih =>
      obtain ⟨cat, kws⟩ := p
      simp only [List.map_cons, categorize_from, any_lower_map, ih]

/-! ## Claim theorems for the atomic write -/

/-- C1 counterexample: with prior content `"old"` on the target, a call that
fails at the rename step ends with the target file absent (the prior content
is not preserved), and even a fully successful call goes through an
intermediate state — after `os.remove(filepath)` and before
`os.rename` — in which the target file is absent; so a reader can observe an
absent target file, contrary to the claim. -/
theorem safe_json_write_not_atomic :
    (safe_json_write (α := String) ⟨some (.complete "old"), none⟩ "new"
        .atRename).final.target = none
    ∧ (safe_json_write (α := String) ⟨some (.complete "old"), none⟩ "new"
        .atRename).ok = false
    ∧ (safe_json_write (α := String) ⟨some (.complete "old"), none⟩ "new"
        .noFail).trace[3]? = some ⟨none, some (.complete "new")⟩ := by
  decide

/-- C1 (amended): a call that fails while serializing into the temporary
file leaves the target's prior content unchanged and discards the temporary
file; a fully successful call ends with the target holding the new complete
serialization; and in every run the target file is never seen partially
written — it holds the prior content, the new complete content, or is
absent.  The target can however be observed absent between the removal of
the old file and the rename, so the replacement is not atomic. -/
theorem safe_json_write_amended {α : Type} (fs : TwoFiles α) (data : α) :
    ((safe_json_write fs data .duringDump).final.target = fs.target
      ∧ (safe_json_write fs data .duringDump).final.temp = none
      ∧ (safe_json_write fs data .duringDump).ok = false)
    ∧ ((safe_json_write fs data .noFail).final.target = some (.complete data)
      ∧ (safe_json_write fs data .noFail).ok = true)
    ∧ ∀ fp : FailPoint, ∀ s ∈ (safe_json_write fs data fp).trace,
        s.target = fs.target ∨ s.target = none
          ∨ s.target = some (.complete data) := by
  refine ⟨⟨rfl, rfl, rfl⟩, ⟨rfl, rfl⟩, ?_⟩
  intro fp
  cases fp <;> by_cases ht : fs.target.isSome <;>
    simp [safe_json_write, ht, List.forall_mem_cons]

theorem safe_json_write_amended_witness :
    ((safe_json_write (α := String) ⟨some (.complete "old"), none⟩ "new"
        .duringDump).final.target = some (.complete "old")
      ∧ (safe_json_write (α := String) ⟨some (.complete "old"), none⟩ "new"
        .duringDump).final.temp = none
      ∧ (safe_json_write (α := String) ⟨some (.complete "old"), none⟩ "new"
        .duringDump).ok = false)
    ∧ ((⟨some (.complete "old"), some .halfWritten⟩ : TwoFiles String).target
          = some (.complete "old")
        ∨ (⟨some (.complete "old"), some .halfWritten⟩ : TwoFiles String).target
          = none
        ∨ (⟨some (.complete "old"), some .halfWritten⟩ : TwoFiles String).target
          = some (.complete "new")) :=
  ⟨(safe_json_write_amended ⟨some (.complete "old"), none⟩ "new").1,
   (safe_json_write_amended ⟨some (.complete "old"), none⟩ "new").2.2
     .duringDump ⟨some (.complete "old"), some .halfWritten⟩ (by decide)⟩

/-! ## Claim theorems for the self-healing registry load -/

theorem migrate_users_refs (m : List (String × UserData)) :
    ∀ files, ∀ p ∈ (migrate_users files m).2, p.2.balance_file.isSome = true := by
  induction m with
  | nil => intro files p hp; simp [migrate_users] at hp
  | cons q rest ih =>
      obtain ⟨u, d⟩ := q
      intro files p hp
      cases hbf : d.balance_file with
      | some bf =>
          simp only [migrate_users, hbf, List.mem_cons] at hp
          rcases hp with rfl | hp'
          · rw [hbf]; rfl
          · exact ih files p hp'
      | none =>
          simp only [migrate_users, hbf, List.mem_cons] at hp
          rcases hp with rfl | hp'
          · rfl
          · exact ih _ p hp'

theorem migrate_users_keeps (m : List (String × UserData)) :
    ∀ files x c, alookup files x = some c →
      alookup (migrate_users files m).1 x = some c := by
  induction m with
  | nil => intro files x c h; simpa [migrate_users] using h
  | cons q rest ih =>
      obtain ⟨u, d⟩ := q
      intro files x c h
      cases hbf : d.balance_file with
      | some bf => simp only [migrate_users, hbf]; exact ih files x c h
      | none =>
          simp only [migrate_users, hbf]
          by_cases hex : (alookup files (balanceName u)).isSome = true
          · simp only [hex, if_true]; exact ih files x c h
          · simp only [hex, Bool.false_eq_true, if_false]
            have hnone : alookup files (balanceName u) = none := by
              cases hne : alookup files (balanceName u)
              · rfl
              · rw [hne] at hex; simp at hex
            have hxne : balanceName u ≠ x := by
              intro e; rw [e, h] at hnone; exact Option.noConfusion hnone
            exact ih _ x c (by rw [alookup_aset_ne _ _ _ _ hxne]; exact h)

theorem migrate_users_creates (m : List (String × UserData)) :
    ∀ files u d, (u, d) ∈ m → d.balance_file = none →
      ∃ c, alookup (migrate_users files m).1 (balanceName u) = some c := by
  induction m with
  | nil => intro files u d h; simp at h
  | cons q rest ih =>
      obtain ⟨u0, d0⟩ := q
      intro files u d hm hbf
      rcases List.mem_cons.mp hm with he | hm'
      · obtain ⟨rfl, rfl⟩ := Prod.mk.injEq .. ▸ he
        simp only [migrate_users, hbf]
        by_cases hex : (alookup files (balanceName u)).isSome = true
        · simp only [hex, if_true]
          cases hc : alookup files (balanceName u) with
          | none => rw [hc] at hex; simp at hex
          | some c => exact ⟨c, migrate_users_keeps rest files _ c hc⟩
        · simp only [hex, Bool.false_eq_true, if_false]
          exact ⟨.balanceObj (some 0),
            migrate_users_keeps rest _ _ _ (alookup_aset_self files _ _)⟩
      · cases hbf0 : d0.balance_file with
        | some bf => simp only [migrate_users, hbf0]; exact ih files u d hm' hbf
        | none =>
            simp only [migrate_users, hbf0]
            by_cases hex : (alookup files (balanceName u0)).isSome = true
            · simp only [hex, if_true]; exact ih files u d hm' hbf
            · simp only [hex, Bool.false_eq_true, if_false]
              exact ih _ u d hm' hbf

theorem migrate_users_new_content (m : List (String × UserData)) :
    ∀ files x, alookup files x = none →
      alookup (migrate_users files m).1 x = none
      ∨ alookup (migrate_users files m).1 x = some (.balanceObj (some 0)) := by
  induction m with
  | nil => intro files x h; left; simpa [migrate_users] using h
  | cons q rest ih =>
      obtain ⟨u0, d0⟩ := q
      intro files x h
      cases hbf : d0.balance_file with
      | some bf => simp only [migrate_users, hbf]; exact ih files x h
      | none =>
          simp only [migrate_users, hbf]
          by_cases hex : (alookup files (balanceName u0)).isSome = true
          · simp only [hex, if_true]; exact ih files x h
          · simp only [hex, Bool.false_eq_true, if_false]
            by_cases hxu : balanceName u0 = x
            · subst hxu
              right
              exact migrate_users_keeps rest _ _ _ (alookup_aset_self files _ _)
            · exact ih _ x (by rw [alookup_aset_ne _ _ _ _ hxu]; exact h)

theorem ensure_userFiles (st : Store) :
    (ensure_directory_exists st).userFiles = st.userFiles := by
  cases st with | mk rf uf => cases rf <;> rfl

/-- C2 counterexample: a registry whose single account already carries a
balance-file reference, while the referenced balance file (and the data and
categories files) are absent from disk: `load_users` creates none of them,
so after the load the account's referenced files are still missing — the
claim that after load every account has all three referenced files present
on disk fails. -/
theorem load_users_no_heal_counterexample :
    alookup (load_users ⟨some (.ok [("alice", aliceRecord)]), []⟩).1.userFiles
        "user_alice_balance.json" = none
    ∧ alookup (load_users ⟨some (.ok [("alice", aliceRecord)]), []⟩).1.userFiles
        "user_alice_data.csv" = none
    ∧ alookup (load_users ⟨some (.ok [("alice", aliceRecord)]), []⟩).1.userFiles
        "user_alice_categories.json" = none := by
  decide

/-- C2 (amended): on every load, each account record that lacks a
balance-file reference is given the synthesized reference, and its backing
balance file is created with balance 0 when missing from disk; the registry
file is then rewritten with the healed mapping, so after load every record
in the returned registry carries a balance-file reference.  Accounts whose
records already reference a balance file, and the data and categories files
of every account, are not checked, so a referenced file may still be absent
from disk after the load. -/
theorem load_users_self_heal (st : Store) :
    (∀ p ∈ (load_users st).2, p.2.balance_file.isSome = true)
    ∧ (load_users st).1.regFile = some (.ok (load_users st).2)
    ∧ (∀ u d, (u, d) ∈ read_registry (ensure_directory_exists st) →
        d.balance_file = none →
        ∃ c, alookup (load_users st).1.userFiles (balanceName u) = some c)
    ∧ ∀ u d, (u, d) ∈ read_registry (ensure_directory_exists st) →
        d.balance_file = none →
        alookup st.userFiles (balanceName u) = none →
        alookup (load_users st).1.userFiles (balanceName u)
          = some (.balanceObj (some 0)) := by
  have huf : (load_users st).1.userFiles
      = (migrate_users st.userFiles (read_registry (ensure_directory_exists st))).1 := by
    simp [load_users, ensure_userFiles]
  refine ⟨?_, by simp [load_users], ?_, ?_⟩
  · intro p hp
    exact migrate_users_refs _ _ p (by simpa [load_users, ensure_userFiles] using hp)
  · intro u d hm hbf
    rw [huf]
    exact migrate_users_creates _ st.userFiles u d hm hbf
  · intro u d hm hbf hab
    rw [huf]
    rcases migrate_users_new_content (read_registry (ensure_directory_exists st))
        st.userFiles (balanceName u) hab with hn | hs
    · obtain ⟨c, hc⟩ := migrate_users_creates _ st.userFiles u d hm hbf
      rw [hc] at hn
      exact Option.noConfusion hn
    · exact hs

theorem load_users_self_heal_witness :
    (∀ p ∈ (load_users ⟨some (.ok [("bob",
        ⟨"sha256:x", "user_bob_data.csv", "user_bob_categories.json", none⟩)]),
        []⟩).2, p.2.balance_file.isSome = true)
    ∧ alookup (load_users ⟨some (.ok [("bob",
        ⟨"sha256:x", "user_bob_data.csv", "user_bob_categories.json", none⟩)]),
        []⟩).1.userFiles (balanceName "bob") = some (.balanceObj (some 0)) :=
  ⟨(load_users_self_heal ⟨some (.ok [("bob",
      ⟨"sha256:x", "user_bob_data.csv", "user_bob_categories.json", none⟩)]),
      []⟩).1,
   (load_users_self_heal ⟨some (.ok [("bob",
      ⟨"sha256:x", "user_bob_data.csv", "user_bob_categories.json", none⟩)]),
      []⟩).2.2.2 "bob"
      ⟨"sha256:x", "user_bob_data.csv", "user_bob_categories.json", none⟩
      (by decide) (by decide) (by decide)⟩

/-! ## Claim theorems for journal loading -/

theorem add_missing_columns_eq (df : DataFrame) :
    add_missing_columns df
      = addCol (addCol (addCol (addCol df "Date") "Description") "Category")
          "Amount" := rfl

theorem nRows_addCol (df : DataFrame) (col : String) :
    nRows (addCol df col) = nRows df := by
  unfold addCol
  by_cases h : (alookup df.cols col).isSome = true
  · simp [h]
  · simp only [h, Bool.false_eq_true, if_false]
    cases hc : df.cols with
    | nil => simp [nRows, hc]
    | cons c rest => simp [nRows, hc]

theorem alookup_addCol_some (df : DataFrame) (col x : String) (vs : List Cell)
    (h : alookup df.cols x = some vs) :
    alookup (addCol df col).cols x = some vs := by
  unfold addCol
  by_cases hc : (alookup df.cols col).isSome = true
  · simp [hc, h]
  · simp only [hc, Bool.false_eq_true, if_false]
    exact alookup_append_some _ _ _ _ h

theorem alookup_addCol_none (df : DataFrame) (col x : String) (hne : col ≠ x)
    (h : alookup df.cols x = none) :
    alookup (addCol df col).cols x = none := by
  unfold addCol
  by_cases hc : (alookup df.cols col).isSome = true
  · simp [hc, h]
  · simp only [hc, Bool.false_eq_true, if_false]
    rw [alookup_append_none _ _ _ h]
    simp [alookup, hne]

theorem alookup_addCol_self_none (df : DataFrame) (col : String)
    (h : alookup df.cols col = none) :
    alookup (addCol df col).cols col
      = some (List.replicate (nRows df) (defaultCell col)) := by
  unfold addCol
  simp only [h, Option.isSome_none, Bool.false_eq_true, if_false]
  rw [alookup_append_none _ _ _ h]
  simp [alookup]

theorem addCol_wf (df : DataFrame) (col : String)
    (h : ∀ p ∈ df.cols, p.2.length = nRows df) :
    ∀ p ∈ (addCol df col).cols, p.2.length = nRows df := by
  intro p hp
  unfold addCol at hp
  by_cases hc : (alookup df.cols col).isSome = true
  · rw [if_pos hc] at hp; exact h p hp
  · rw [if_neg hc] at hp
    rcases List.mem_append.mp hp with h1 | h2
    · exact h p h1
    · rcases List.mem_singleton.mp h2 with rfl
      simp

theorem alookup_mem {β : Type} (l : List (String × β)) (x : String) (v : β)
    (h : alookup l x = some v) : (x, v) ∈ l := by
  induction l with
  | nil => simp [alookup] at h
  | cons p rest ih =>
      obtain ⟨k0, v0⟩ := p
      by_cases h0 : k0 = x
      · subst h0
        simp [alookup] at h
        simp [h]
      · simp only [alookup, h0, if_false] at h
        exact List.mem_cons_of_mem _ (ih h)

theorem add_missing_keeps (df : DataFrame) (x : String) (vs : List Cell)
    (h : alookup df.cols x = some vs) :
    alookup (add_missing_columns df).cols x = some vs := by
  rw [add_missing_columns_eq]
  exact alookup_addCol_some _ _ _ _
    (alookup_addCol_some _ _ _ _
      (alookup_addCol_some _ _ _ _ (alookup_addCol_some _ _ _ _ h)))

theorem add_missing_fills (df : DataFrame) (col : String)
    (hmem : col ∈ required_columns) (h : alookup df.cols col = none) :
    alookup (add_missing_columns df).cols col
      = some (List.replicate (nRows df) (defaultCell col)) := by
  rw [add_missing_columns_eq]
  simp only [required_columns, List.mem_cons, List.not_mem_nil, or_false] at hmem
  rcases hmem with rfl | rfl | rfl | rfl
  · exact alookup_addCol_some _ _ _ _
      (alookup_addCol_some _ _ _ _
        (alookup_addCol_some _ _ _ _ (alookup_addCol_self_none df _ h)))
  · have h1 : alookup (addCol df "Date").cols "Description" = none :=
      alookup_addCol_none df _ _ (by decide) h
    have h2 := alookup_addCol_self_none (addCol df "Date") _ h1
    rw [nRows_addCol] at h2
    exact alookup_addCol_some _ _ _ _ (alookup_addCol_some _ _ _ _ h2)
  · have h1 : alookup (addCol df "Date").cols "Category" = none :=
      alookup_addCol_none df _ _ (by decide) h
    have h2 : alookup (addCol (addCol df "Date") "Description").cols "Category"
        = none := alookup_addCol_none _ _ _ (by decide) h1
    have h3 := alookup_addCol_self_none (addCol (addCol df "Date") "Description") _ h2
    rw [nRows_addCol, nRows_addCol] at h3
    exact alookup_addCol_some _ _ _ _ h3
  · have h1 : alookup (addCol df "Date").cols "Amount" = none :=
      alookup_addCol_none df _ _ (by decide) h
    have h2 : alookup (addCol (addCol df "Date") "Description").cols "Amount"
        = none := alookup_addCol_none _ _ _ (by decide) h1
    have h3 : alookup (addCol (addCol (addCol df "Date") "Description")
        "Category").cols "Amount" = none :=
      alookup_addCol_none _ _ _ (by decide) h2
    have h4 := alookup_addCol_self_none
      (addCol (addCol (addCol df "Date") "Description") "Category") _ h3
    rw [nRows_addCol, nRows_addCol, nRows_addCol] at h4
    exact h4

theorem add_missing_other (df : DataFrame) (x : String)
    (hx : x ∉ required_columns) :
    alookup (add_missing_columns df).cols x = alookup df.cols x := by
  have hne : "Date" ≠ x ∧ "Description" ≠ x ∧ "Category" ≠ x ∧ "Amount" ≠ x := by
    refine ⟨?_, ?_, ?_, ?_⟩ <;> intro e <;> exact hx (by rw [← e]; decide)
  cases h : alookup df.cols x with
  | some vs => exact add_missing_keeps df x vs h
  | none =>
      rw [add_missing_columns_eq]
      exact alookup_addCol_none _ _ _ hne.2.2.2
        (alookup_addCol_none _ _ _ hne.2.2.1
          (alookup_addCol_none _ _ _ hne.2.1
            (alookup_addCol_none _ _ _ hne.1 h)))

theorem add_missing_wf (df : DataFrame)
    (h : ∀ p ∈ df.cols, p.2.length = nRows df) :
    ∀ p ∈ (add_missing_columns df).cols, p.2.length = nRows df := by
  rw [add_missing_columns_eq]
  have h1 := addCol_wf df "Date" h
  rw [← nRows_addCol df "Date"] at h1
  have h2 := addCol_wf _ "Description" h1
  rw [← nRows_addCol (addCol df "Date") "Description"] at h2
  have h3 := addCol_wf _ "Category" h2
  rw [← nRows_addCol (addCol (addCol df "Date") "Description") "Category"] at h3
  have h4 := addCol_wf _ "Amount" h3
  simpa [nRows_addCol] using h4

theorem mapOption_replicate_null (n : Nat) :
    mapOption parseDateCell (List.replicate n Cell.null)
      = some (List.replicate n Cell.null) := by
  induction n with
  | zero => rfl
  | succ k ih => simp [List.replicate_succ, mapOption, parseDateCell, ih]

theorem mapOption_length {α β : Type} (f : α → Option β) (l : List α)
    (l' : List β) (h : mapOption f l = some l') : l'.length = l.length := by
  induction l generalizing l' with
  | nil =>
      simp only [mapOption, Option.some.injEq] at h
      simp [← h]
  | cons a as ih =>
      simp only [mapOption] at h
      cases hfa : f a with
      | none => rw [hfa] at h; exact absurd h (by simp)
      | some b =>
          rw [hfa] at h
          cases hrest : mapOption f as with
          | none => rw [hrest] at h; exact absurd h (by simp)
          | some bs =>
              rw [hrest] at h
              simp only [Option.some.injEq] at h
              rw [← h]
              simp [ih bs hrest]

/-- C8: for every registered username, `load_user_data` returns the stored
table with missing columns normalized — an absent Amount column is filled
with 0 on every row and absent Date, Description and Category columns are
filled with the missing value on every row — and with the Date column parsed
into calendar-date cells; columns that are present keep their cell values
and row order, other columns are untouched, all columns keep the row count,
and a missing, malformed or unparseable journal file (including a Date value
that fails to parse) degrades to the empty four-column frame. -/
theorem load_user_data_normalizes (st : Store) (m : List (String × UserData))
    (u : String) (d : UserData) (hwf : WF st m) (hu : alookup m u = some d) :
    (alookup st.userFiles d.data_file = none →
        (load_user_data st u).2 = emptyFrame)
    ∧ (∀ c, alookup st.userFiles d.data_file = some c →
        (∀ df, c ≠ FileContent.csv df) → (load_user_data st u).2 = emptyFrame)
    ∧ ∀ df, alookup st.userFiles d.data_file = some (.csv df) →
        (∀ p ∈ df.cols, p.2.length = nRows df) →
        ((dateOK df = false → (load_user_data st u).2 = emptyFrame)
        ∧ (dateOK df = true →
            (∀ vs vs', alookup df.cols "Date" = some vs →
                mapOption parseDateCell vs = some vs' →
                alookup (load_user_data st u).2.cols "Date" = some vs')
            ∧ (alookup df.cols "Date" = none →
                alookup (load_user_data st u).2.cols "Date"
                  = some (List.replicate (nRows df) Cell.null))
            ∧ (∀ col, col = "Description" ∨ col = "Category" →
                (∀ vs, alookup df.cols col = some vs →
                    alookup (load_user_data st u).2.cols col = some vs)
                ∧ (alookup df.cols col = none →
                    alookup (load_user_data st u).2.cols col
                      = some (List.replicate (nRows df) Cell.null)))
            ∧ (∀ vs, alookup df.cols "Amount" = some vs →
                alookup (load_user_data st u).2.cols "Amount" = some vs)
            ∧ (alookup df.cols "Amount" = none →
                alookup (load_user_data st u).2.cols "Amount"
                  = some (List.replicate (nRows df) (Cell.num 0)))
            ∧ (∀ col, col ∉ required_columns →
                alookup (load_user_data st u).2.cols col = alookup df.cols col)
            ∧ ∀ p ∈ (load_user_data st u).2.cols, p.2.length = nRows df)) := by
  have hl := load_users_id st m hwf
  refine ⟨?_, ?_, ?_⟩
  · intro h; simp [load_user_data, hl, hu, h]
  · intro c hc hne
    cases c with
    | csv df => exact absurd rfl (hne df)
    | balanceObj b => simp [load_user_data, hl, hu, hc]
    | cats r => simp [load_user_data, hl, hu, hc]
    | corrupt => simp [load_user_data, hl, hu, hc]
  · intro df hc hwfdf
    constructor
    · intro hbad
      unfold dateOK at hbad
      cases hD : alookup df.cols "Date" with
      | none => simp [hD] at hbad
      | some vs =>
          simp only [hD] at hbad
          have hmap : mapOption parseDateCell vs = none := by
            cases hmo : mapOption parseDateCell vs with
            | none => rfl
            | some vs' => rw [hmo] at hbad; simp at hbad
          have hN := add_missing_keeps df "Date" vs hD
          have hsd : set_date_column (add_missing_columns df) = none := by
            simp [set_date_column, hN, hmap]
          simp [load_user_data, hl, hu, hc, hsd]
    · intro hok
      obtain ⟨vs0, hvs0, vs', hmap', hlen⟩ :
          ∃ vs0, alookup (add_missing_columns df).cols "Date" = some vs0
            ∧ ∃ vs', mapOption parseDateCell vs0 = some vs'
            ∧ vs'.length = nRows df := by
        cases hD : alookup df.cols "Date" with
        | some vs =>
            have hN := add_missing_keeps df "Date" vs hD
            unfold dateOK at hok
            simp only [hD] at hok
            cases hmo : mapOption parseDateCell vs with
            | none => rw [hmo] at hok; simp at hok
            | some vsp =>
                refine ⟨vs, hN, vsp, hmo, ?_⟩
                rw [mapOption_length _ _ _ hmo]
                exact hwfdf _ (alookup_mem _ _ _ hD)
        | none =>
            have hN := add_missing_fills df "Date" (by decide) hD
            rw [show defaultCell "Date" = Cell.null from rfl] at hN
            exact ⟨List.replicate (nRows df) Cell.null, hN,
              List.replicate (nRows df) Cell.null,
              mapOption_replicate_null (nRows df), by simp⟩
      have hsd : set_date_column (add_missing_columns df)
          = some ⟨aset (add_missing_columns df).cols "Date" vs'⟩ := by
        simp [set_date_column, hvs0, hmap']
      have hout : (load_user_data st u).2
          = ⟨aset (add_missing_columns df).cols "Date" vs'⟩ := by
        simp [load_user_data, hl, hu, hc, hsd]
      refine ⟨?_, ?_, ?_, ?_, ?_, ?_, ?_⟩
      · intro vs vs₁ hD hm
        have hN := add_missing_keeps df "Date" vs hD
        have hv : vs0 = vs := by
          rw [hN] at hvs0
          exact (Option.some_inj.mp hvs0).symm
        subst hv
        have hv' : vs' = vs₁ := by
          rw [hmap'] at hm
          exact Option.some_inj.mp hm
        subst hv'
        rw [hout]
        exact alookup_aset_self _ _ _
      · intro hD
        have hN := add_missing_fills df "Date" (by decide) hD
        rw [show defaultCell "Date" = Cell.null from rfl] at hN
        have hv : vs0 = List.replicate (nRows df) Cell.null := by
          rw [hN] at hvs0
          exact (Option.some_inj.mp hvs0).symm
        subst hv
        rw [mapOption_replicate_null] at hmap'
        have hv' : vs' = List.replicate (nRows df) Cell.null :=
          (Option.some_inj.mp hmap').symm
        subst hv'
        rw [hout]
        exact alookup_aset_self _ _ _
      · intro col hcol
        have hne : "Date" ≠ col := by rcases hcol with rfl | rfl <;> decide
        constructor
        · intro vs hDvs
          rw [hout, alookup_aset_ne _ _ _ _ hne]
          exact add_missing_keeps df col vs hDvs
        · intro hnone
          rw [hout, alookup_aset_ne _ _ _ _ hne]
          have hf := add_missing_fills df col
            (by rcases hcol with rfl | rfl <;> decide) hnone
          rcases hcol with rfl | rfl
          · rw [show defaultCell "Description" = Cell.null from rfl] at hf
            exact hf
          · rw [show defaultCell "Category" = Cell.null from rfl] at hf
            exact hf
      · intro vs hA
        rw [hout, alookup_aset_ne _ _ _ _ (by decide : "Date" ≠ "Amount")]
        exact add_missing_keeps df "Amount" vs hA
      · intro hA
        rw [hout, alookup_aset_ne _ _ _ _ (by decide : "Date" ≠ "Amount")]
        have hf := add_missing_fills df "Amount" (by decide) hA
        rw [show defaultCell "Amount" = Cell.num 0 from rfl] at hf
        exact hf
      · intro col hcol
        have hne : "Date" ≠ col := by
          intro e; exact hcol (by rw [← e]; decide)
        rw [hout, alookup_aset_ne _ _ _ _ hne]
        exact add_missing_other df col hcol
      · intro p hp
        rw [hout] at hp
        rcases mem_aset _ _ _ p hp with h1 | h2
        · exact add_missing_wf df hwfdf p h1
        · rw [h2]; exact hlen

theorem load_user_data_normalizes_witness :
    alookup (load_user_data c8store "alice").2.cols "Date"
      = some [Cell.date 2024 1 5, Cell.date 2024 1 6]
    ∧ alookup (load_user_data c8store "alice").2.cols "Amount"
      = some (List.replicate (nRows c8frame) (Cell.num 0)) :=
  ⟨(((load_user_data_normalizes c8store [("alice", aliceRecord)] "alice"
        aliceRecord (by decide) (by decide)).2.2 c8frame (by decide)
        (by decide)).2 (by decide)).1
      [Cell.str "2024-01-05", Cell.str "2024-01-06"]
      [Cell.date 2024 1 5, Cell.date 2024 1 6] (by decide) (by decide),
   (((load_user_data_normalizes c8store [("alice", aliceRecord)] "alice"
        aliceRecord (by decide) (by decide)).2.2 c8frame (by decide)
        (by decide)).2 (by decide)).2.2.2.2.1 (by decide)⟩
